import Mathlib

/-!
# Verification of the tasker repository (`packages/features/tasker/repository.ts`)

Shallow embedding of the durable task-queue repository layer.  The Prisma
store is modelled as a `List Task` passed explicitly through each operation;
timestamps are integers (milliseconds since epoch), and every `new Date()`
capture in the source becomes an explicit `now : Int` argument.  Prisma
errors become an explicit error type (`PrismaError`); a `db.task.update` /
`db.task.delete` on a missing row fails with Prisma code `"P2025"`.
-/

namespace Tasker

/-- Prisma's error taxonomy as used by the repository: a
`PrismaClientKnownRequestError` carrying a code (the source checks for
`"P2025"`, "record to delete does not exist"), or any other error. -/
inductive PrismaError where
  | knownRequest (code : String)
  | other (message : String)
deriving DecidableEq, Repr

/-- Equality of `Except` results is decidable when both components are,
which lets concrete counterexamples be checked by `decide`. -/
instance {ε α : Type _} [DecidableEq ε] [DecidableEq α] :
    DecidableEq (Except ε α) := fun a b =>
  match a, b with
  | .ok x, .ok y =>
    if h : x = y then isTrue (by rw [h]) else isFalse (by simp [h])
  | .error e, .error f =>
    if h : e = f then isTrue (by rw [h]) else isFalse (by simp [h])
  | .ok _, .error _ => isFalse (by simp)
  | .error _, .ok _ => isFalse (by simp)

/-- Modelled from the spec: the payload is an opaque serialized blob
(`payload: string`); the schema module `./tasks/scanWorkflowBody` is outside
the given sources.  We model exactly the two observations the repository
makes of a payload: the store-level SQL expression
`(payload::jsonb ->> 'workflowStepId')::int` (see `Payload.stepIdCast`),
and the result of `scanWorkflowBodySchema.parse(JSON.parse(payload))`
(none when `JSON.parse` or the schema validation throws). -/
structure ScanWorkflowBody where
  workflowStepId : Int
  /-- The schema's `createdAt` field; `none` models an absent / falsy value
  (the source guards `if (!parsed.createdAt) return false`). -/
  createdAt : Option Int
deriving DecidableEq, Repr

/-- Modelled from the spec: the two observations of an opaque payload blob.
`stepIdCast` is the outcome of evaluating the raw query's WHERE expression
`(payload::jsonb ->> 'workflowStepId')::int` on this payload.  That
expression is fallible in Postgres: `payload::jsonb` raises on a payload
that is not valid JSON, and `::int` raises when the extracted field's text
is not an integer — so `none` models the cast RAISING a database error,
`some none` a successful evaluation to SQL NULL (field absent; `NULL = x`
then simply fails to match), and `some (some n)` a successful extraction of
the integer `n`.  `schemaParse` is the application-side
`scanWorkflowBodySchema.parse(JSON.parse(payload))`, `none` when either
throws (a payload that is not valid JSON therefore has both
`stepIdCast = none` and `schemaParse = none`). -/
structure Payload where
  stepIdCast : Option (Option Int)
  schemaParse : Option ScanWorkflowBody
deriving DecidableEq, Repr

/-- One row of the `Task` table (fields as in the repository's queries). -/
structure Task where
  id : Nat
  type : String
  payload : Payload
  scheduledAt : Int
  attempts : Nat
  maxAttempts : Nat
  lastError : Option String
  lastFailedAttemptAt : Option Int
  succeededAt : Option Int
  referenceUid : Option String
  createdAt : Int
deriving DecidableEq, Repr

/-- Source `whereSucceeded`: `{ succeededAt: { not: null } }`. -/
def whereSucceeded (t : Task) : Bool :=
  t.succeededAt != none

/-- Source `whereMaxAttemptsReached`:
`{ attempts: { equals: { _ref: "maxAttempts", _container: "Task" } } }` —
a database-side field-to-field EQUALITY comparison `attempts = maxAttempts`
(no `succeededAt` condition appears in this filter). -/
def whereMaxAttemptsReached (t : Task) : Bool :=
  t.attempts == t.maxAttempts

/-- Source `makeWhereUpcomingTasks()`: `succeededAt: null`,
`scheduledAt: { lt: new Date() }` (STRICT less-than), and
`attempts: { lt: { _ref: "maxAttempts" } }`.  The fresh `new Date()` is the
explicit `now` argument. -/
def makeWhereUpcomingTasks (now : Int) (t : Task) : Bool :=
  t.succeededAt == none && decide (t.scheduledAt < now) &&
    decide (t.attempts < t.maxAttempts)

/-- Follows the spec's words (§3): a task is failed iff
`attempts >= maxAttempts AND succeededAt IS NULL`.  Kept separate from the
implemented `whereMaxAttemptsReached` so the two can be compared. -/
def specFailed (t : Task) : Bool :=
  decide (t.maxAttempts ≤ t.attempts) && t.succeededAt == none

/-- Follows the spec's words (§3): a task is upcoming iff
`succeededAt IS NULL AND scheduledAt <= now AND attempts < maxAttempts`. -/
def specUpcoming (now : Int) (t : Task) : Bool :=
  t.succeededAt == none && decide (t.scheduledAt ≤ now) &&
    decide (t.attempts < t.maxAttempts)

/-- Follows the spec's words (§3): a task is succeeded iff
`succeededAt IS NOT NULL`. -/
def specSucceeded (t : Task) : Bool :=
  t.succeededAt != none

/-- Follows the spec's words (§3): "not yet due" is
`scheduledAt > now`, not succeeded, not failed. -/
def specNotYetDue (now : Int) (t : Task) : Bool :=
  decide (now < t.scheduledAt) && !specSucceeded t && !specFailed t

/-- Source `db.task.update({ where: { id } , ... })` on the list store: a fresh
Prisma update throws `P2025` when no row has the id; otherwise it applies
the data patch `f` to that row and returns the updated row. -/
def dbUpdate (taskId : Nat) (f : Task → Task) (ts : List Task) :
    Except PrismaError (List Task × Task) :=
  match ts.find? (fun t => t.id == taskId) with
  | none => .error (.knownRequest ("P2025"))
  | some t => .ok (ts.map (fun u => if u.id == taskId then f u else u), f t)

/-- Source `db.task.delete({ where: { id } })`: throws `P2025` when no row has the
id; otherwise removes that row and returns it. -/
def dbDeleteById (taskId : Nat) (ts : List Task) :
    Except PrismaError (List Task × Task) :=
  match ts.find? (fun t => t.id == taskId) with
  | none => .error (.knownRequest ("P2025"))
  | some t => .ok (ts.eraseP (fun u => u.id == taskId), t)

/-- Source `db.task.delete({ where: { referenceUid_type: { referenceUid, type } } },
select: { id: true })`: delete by the `(referenceUid, type)` unique key,
returning the deleted row's id; throws `P2025` when no row matches. -/
def dbDeleteByReference (referenceUid : String) (type : String)
    (ts : List Task) : Except PrismaError (List Task × Nat) :=
  match ts.find? (fun t =>
      t.referenceUid == some referenceUid && t.type == type) with
  | none => .error (.knownRequest ("P2025"))
  | some t =>
    .ok (ts.eraseP (fun u =>
      u.referenceUid == some referenceUid && u.type == type), t.id)

/-- The data patch of `Task.retry`: `attempts: { increment: 1 }`,
`lastError` (a Prisma `undefined` field, here `none`, leaves the column
unchanged), `lastFailedAttemptAt: failedAttemptTime`, and `scheduledAt`
only when `updatedScheduledAt` is truthy — the source computes
`minRetryIntervalMins ? new Date(failedAttemptTime.getTime() + 1000 * 60 *
minRetryIntervalMins) : undefined`, so the JavaScript-falsy values `0`,
`null` and `undefined` (here `some 0` and `none`) all leave `scheduledAt`
unchanged. -/
def taskRetryUpdate (now : Int) (lastError : Option String)
    (minRetryIntervalMins : Option Int) (t : Task) : Task :=
  let updatedScheduledAt : Option Int :=
    match minRetryIntervalMins with
    | some m => if m == 0 then none else some (now + 1000 * 60 * m)
    | none => none
  { t with
    attempts := t.attempts + 1
    lastError := match lastError with
      | some e => some e
      | none => t.lastError
    lastFailedAttemptAt := some now
    scheduledAt := updatedScheduledAt.getD t.scheduledAt }

/-- The data patch of `Task.succeed`: `attempts: { increment: 1 }`,
`succeededAt: new Date()`. -/
def taskSucceedUpdate (now : Int) (t : Task) : Task :=
  { t with attempts := t.attempts + 1, succeededAt := some now }

/-- Source `Task.retry({ taskId, lastError, minRetryIntervalMins })`.
`minRetryIntervalMins?: number | null` — both `null` and `undefined` are
modelled as `none`. -/
def Task.retry (now : Int) (taskId : Nat) (lastError : Option String)
    (minRetryIntervalMins : Option Int) (ts : List Task) :
    Except PrismaError (List Task × Task) :=
  dbUpdate taskId (taskRetryUpdate now lastError minRetryIntervalMins) ts

/-- Source `Task.succeed(taskId)`. -/
def Task.succeed (now : Int) (taskId : Nat) (ts : List Task) :
    Except PrismaError (List Task × Task) :=
  dbUpdate taskId (taskSucceedUpdate now) ts

/-- Source `Task.cancel(taskId)`: unconditional `db.task.delete`. -/
def Task.cancel (taskId : Nat) (ts : List Task) :
    Except PrismaError (List Task × Task) :=
  dbDeleteById taskId ts

/-- The `catch` clause of `Task.cancelWithReference`: a
`PrismaClientKnownRequestError` with code `"P2025"` becomes the benign
`null` result; any other error is re-thrown. -/
def handleCancelWithReferenceError (e : PrismaError) :
    Except PrismaError (Option Nat) :=
  match e with
  | .knownRequest code =>
    if code == "P2025" then .ok none else .error (.knownRequest code)
  | .other message => .error (.other message)

/-- Source `Task.cancelWithReference(referenceUid, type)`: try the delete; on
success return the deleted id, on error run the catch clause (state is
unchanged when the delete threw). -/
def Task.cancelWithReference (referenceUid : String) (type : String)
    (ts : List Task) : Except PrismaError (List Task × Option Nat) :=
  match dbDeleteByReference referenceUid type ts with
  | .ok (ts', taskId) => .ok (ts', some taskId)
  | .error e =>
    match handleCancelWithReferenceError e with
    | .ok v => .ok (ts, v)
    | .error e' => .error e'

/-- Source `Task.getNextBatch()`: `findMany` with `makeWhereUpcomingTasks()`,
`orderBy: { scheduledAt: "asc" }`, `take: 1000`. -/
def Task.getNextBatch (now : Int) (ts : List Task) : List Task :=
  (((ts.filter (makeWhereUpcomingTasks now)).mergeSort
    (fun a b => decide (a.scheduledAt ≤ b.scheduledAt))).take 1000)

/-- Source `Task.getFailed()`: `findMany` with `whereMaxAttemptsReached`. -/
def Task.getFailed (ts : List Task) : List Task :=
  ts.filter whereMaxAttemptsReached

/-- Source `Task.getSucceeded()`: `findMany` with `whereSucceeded`. -/
def Task.getSucceeded (ts : List Task) : List Task :=
  ts.filter whereSucceeded

/-- Source `Task.count()`. -/
def Task.count (ts : List Task) : Nat := ts.length

/-- Source `Task.countUpcoming()`. -/
def Task.countUpcoming (now : Int) (ts : List Task) : Nat :=
  (ts.filter (makeWhereUpcomingTasks now)).length

/-- Source `Task.countFailed()`. -/
def Task.countFailed (ts : List Task) : Nat :=
  (ts.filter whereMaxAttemptsReached).length

/-- Source `Task.countSucceeded()`. -/
def Task.countSucceeded (ts : List Task) : Nat :=
  (ts.filter whereSucceeded).length

/-- Source `Task.cleanup()`: the entire `deleteMany` body is commented out in the
source behind `// TODO: Uncomment this later`, so the operation performs no
deletion at all — the store is unchanged. -/
def Task.cleanup (ts : List Task) : List Task := ts

/-- Source `Task.hasNewerScanTaskForStepId(workflowStepId, createdAt)`: the
`$queryRaw` selects rows with `type = 'scanWorkflowBody'`,
`succeededAt IS NULL` and
`(payload::jsonb ->> 'workflowStepId')::int = workflowStepId`.  The cast
expression is evaluated by the database on the pending `scanWorkflowBody`
rows (the equality conjuncts filter first in the usual plan), and if it
RAISES on any such row — payload not valid JSON, or a non-integer field —
the whole query, and with it the whole check, aborts with a raw-query
failure (surfaced by Prisma as known-request error `P2010`; the source has
no catch around the query).  Otherwise the rows whose cast evaluates to the
given step id are kept and `.some` runs over them: parse the payload under
the schema (an application-side throw is caught and yields `false` for that
row), return `false` when `parsed.createdAt` is falsy, else compare
`new Date(parsed.createdAt) > new Date(createdAt)` (strict). -/
def Task.hasNewerScanTaskForStepId (workflowStepId : Int) (createdAt : Int)
    (ts : List Task) : Except PrismaError Bool :=
  if ts.any (fun t =>
      t.type == "scanWorkflowBody" && t.succeededAt == none &&
        t.payload.stepIdCast == none) then
    .error (.knownRequest ("P2010"))
  else
    .ok ((ts.filter (fun t =>
      t.type == "scanWorkflowBody" && t.succeededAt == none &&
        t.payload.stepIdCast == some (some workflowStepId))).any (fun t =>
      match t.payload.schemaParse with
      | none => false
      | some parsed =>
        match parsed.createdAt with
        | none => false
        | some c => decide (createdAt < c)))


/-- A concrete baseline row (attempts 0, maxAttempts 3, nothing set) used by
the concrete counterexamples and witnesses below. -/
def mkTask (id : Nat) : Task :=
  { id := id
    type := "sendEmail"
    payload := { stepIdCast := some none, schemaParse := none }
    scheduledAt := 0
    attempts := 0
    maxAttempts := 3
    lastError := none
    lastFailedAttemptAt := none
    succeededAt := none
    referenceUid := none
    createdAt := 0 }

/-- One lifecycle mutation applied to a single row: the data patch of a
`Task.retry` call or of a `Task.succeed` call. -/
inductive LifecycleOp where
  | retryOp (now : Int) (lastError : Option String)
      (minRetryIntervalMins : Option Int)
  | succeedOp (now : Int)

/-- Application of one lifecycle mutation to a row. -/
def applyLifecycleOp (t : Task) : LifecycleOp → Task
  | .retryOp now lastError m => taskRetryUpdate now lastError m t
  | .succeedOp now => taskSucceedUpdate now t

/-- Each lifecycle mutation increments `attempts` by exactly one, so a fold
over any call sequence adds the sequence length. -/
lemma foldl_applyLifecycleOp_attempts (ops : List LifecycleOp) :
    ∀ t : Task, (ops.foldl applyLifecycleOp t).attempts =
      t.attempts + ops.length := by
  induction ops with
  | nil => intro t; simp
  | cons op rest ih =>
    intro t
    rw [List.foldl_cons, ih]
    have h : (applyLifecycleOp t op).attempts = t.attempts + 1 := by
      cases op <;> rfl
    rw [h, List.length_cons]
    omega

/-- C1: the spec says `cleanup()` deletes all succeeded or failed tasks and
that afterwards no succeeded or failed task remains; in the source the whole
`deleteMany` body of `cleanup()` is commented out (`TODO: Uncomment this
later`), so `cleanup()` deletes nothing: on a store holding one succeeded
task, the task is still there (and still counted by `countSucceeded`)
after `cleanup()`. -/
theorem cleanup_leaves_succeeded_task :
    Task.cleanup [{ mkTask 1 with succeededAt := some 5 }] =
      [{ mkTask 1 with succeededAt := some 5 }] ∧
    whereSucceeded { mkTask 1 with succeededAt := some 5 } = true ∧
    Task.countSucceeded
      (Task.cleanup [{ mkTask 1 with succeededAt := some 5 }]) = 1 := by
  refine ⟨rfl, by decide, by decide⟩

/-- C2 (counterexample): the claim says the implemented failed
classification holds iff `attempts >= maxAttempts AND succeededAt IS NULL`;
the implemented filter is the field-to-field equality
`attempts = maxAttempts`, so a task with `attempts = 3 > maxAttempts = 2`
and `succeededAt` null is failed under the spec predicate but is NOT
matched by `whereMaxAttemptsReached`, and `countFailed` does not count
it. -/
theorem failed_classification_claim_false :
    ¬(whereMaxAttemptsReached { mkTask 1 with attempts := 3, maxAttempts := 2 } = true ↔
        specFailed { mkTask 1 with attempts := 3, maxAttempts := 2 } = true) ∧
    Task.countFailed [{ mkTask 1 with attempts := 3, maxAttempts := 2 }] = 0 ∧
    specFailed { mkTask 1 with attempts := 3, maxAttempts := 2 } = true := by
  refine ⟨by decide, by decide, by decide⟩

/-- C2 (amended): the failed classification used by `getFailed()` and
`countFailed()` holds iff `attempts = maxAttempts` exactly, with no
condition on `succeededAt`: a task with `attempts` strictly greater than
`maxAttempts` is not classified failed, and a task with `succeededAt` set
and `attempts = maxAttempts` is classified failed. -/
theorem failed_classification_spec (t : Task) (ts : List Task) :
    (whereMaxAttemptsReached t = true ↔ t.attempts = t.maxAttempts) ∧
    (t ∈ Task.getFailed ts ↔ t ∈ ts ∧ t.attempts = t.maxAttempts) ∧
    Task.countFailed ts = (Task.getFailed ts).length := by
  refine ⟨?_, ?_, rfl⟩
  · simp [whereMaxAttemptsReached]
  · simp [Task.getFailed, List.mem_filter, whereMaxAttemptsReached]

/-- C5 (counterexample): the claim says a second `succeed()` on an
already-succeeded task does not modify `succeededAt`; the source
unconditionally writes `succeededAt: new Date()`, so succeeding at time 10
a task that already succeeded at time 5 overwrites `succeededAt` to 10. -/
theorem second_succeed_overwrites_succeededAt :
    Task.succeed 10 1 [{ mkTask 1 with succeededAt := some 5 }] =
      .ok ([{ mkTask 1 with attempts := 1, succeededAt := some 10 }],
        { mkTask 1 with attempts := 1, succeededAt := some 10 }) ∧
    ({ mkTask 1 with attempts := 1, succeededAt := some 10 } : Task).succeededAt ≠
      some 5 := by
  refine ⟨by decide, by decide⟩

/-- C5 (amended): `retry` never touches `succeededAt` and no operation ever
resets it to null, but `succeed` always overwrites `succeededAt` with the
current time — so an already-set `succeededAt` stays non-null forever yet
changes value on every further `succeed` call. -/
theorem succeededAt_never_unset_but_overwritten (t : Task) (now : Int)
    (lastError : Option String) (m : Option Int) :
    (taskRetryUpdate now lastError m t).succeededAt = t.succeededAt ∧
    (taskSucceedUpdate now t).succeededAt = some now :=
  ⟨rfl, rfl⟩

/-- C3: the spec says a task with `scheduledAt <= now` (in particular equal
to `now`) is upcoming and is returned by `claimNextBatch`; the source
comment says "scheduled to run now or in the past" but the filter is the
STRICT `scheduledAt: { lt: new Date() }`, so a task due exactly at `now` is
upcoming under the spec predicate yet `getNextBatch` returns an empty
batch and `countUpcoming` counts zero. -/
theorem getNextBatch_excludes_task_due_exactly_now :
    specUpcoming 10 { mkTask 1 with scheduledAt := 10 } = true ∧
    Task.countUpcoming 10 [{ mkTask 1 with scheduledAt := 10 }] = 0 ∧
    Task.getNextBatch 10 [{ mkTask 1 with scheduledAt := 10 }] = [] := by
  have h : List.filter (makeWhereUpcomingTasks 10)
      [{ mkTask 1 with scheduledAt := 10 }] = [] := by decide
  refine ⟨by decide, by decide, ?_⟩
  simp [Task.getNextBatch, h]

/-- C4 (counterexample): the claim says the implemented succeeded set
(`whereSucceeded`) and failed set (`whereMaxAttemptsReached`) are disjoint
for every reachable task; succeeding (at time 10) a task with
`attempts = 0` and `maxAttempts = 1` yields a reachable row with
`succeededAt = 10` and `attempts = 1 = maxAttempts`, which both filters
match. -/
theorem succeeded_and_failed_sets_overlap :
    Task.succeed 10 1 [{ mkTask 1 with maxAttempts := 1 }] =
      .ok ([{ mkTask 1 with maxAttempts := 1, attempts := 1, succeededAt := some 10 }],
        { mkTask 1 with maxAttempts := 1, attempts := 1, succeededAt := some 10 }) ∧
    whereSucceeded
      { mkTask 1 with maxAttempts := 1, attempts := 1, succeededAt := some 10 } = true ∧
    whereMaxAttemptsReached
      { mkTask 1 with maxAttempts := 1, attempts := 1, succeededAt := some 10 } = true := by
  refine ⟨by decide, by decide, by decide⟩

/-- C4 (amended): the four classifications taken with the spec predicates
(not-yet-due, spec-upcoming, spec-failed, succeeded) do partition every
task at every instant; the implemented `whereSucceeded` and
`whereMaxAttemptsReached` filters, however, are not disjoint: they overlap
exactly on the tasks with `succeededAt` set and `attempts = maxAttempts`
(e.g. a task whose final `succeed()` raised `attempts` to `maxAttempts`). -/
theorem classification_partition_spec (now : Int) (t : Task) :
    ((if specNotYetDue now t then 1 else 0) + (if specUpcoming now t then 1 else 0) +
      (if specFailed t then 1 else 0) + (if specSucceeded t then 1 else 0) = 1) ∧
    ((whereSucceeded t = true ∧ whereMaxAttemptsReached t = true) ↔
      (t.succeededAt ≠ none ∧ t.attempts = t.maxAttempts)) := by
  obtain ⟨id, ty, pl, sch, att, ma, le, lf, suc, ru, ca⟩ := t
  constructor
  · cases suc with
    | none =>
      simp [specNotYetDue, specUpcoming, specFailed, specSucceeded]
      split_ifs <;> omega
    | some v =>
      simp [specNotYetDue, specUpcoming, specFailed, specSucceeded]
  · cases suc <;> simp [whereSucceeded, whereMaxAttemptsReached]

/-- C6 (counterexample): the claim says `retry` sets
`scheduledAt = now + minRetryIntervalMins` whenever the parameter is
given; the source guards the update with JavaScript truthiness
(`minRetryIntervalMins ? ... : undefined`), so giving the value `0` at
`now = 100` leaves `scheduledAt` at its old value 50 instead of setting it
to `100 + 0` minutes. -/
theorem retry_with_zero_interval_claim_false :
    Task.retry 100 1 none (some 0) [{ mkTask 1 with scheduledAt := 50 }] =
      .ok ([{ mkTask 1 with scheduledAt := 50, attempts := 1, lastFailedAttemptAt := some 100 }],
        { mkTask 1 with scheduledAt := 50, attempts := 1, lastFailedAttemptAt := some 100 }) ∧
    ({ mkTask 1 with scheduledAt := 50, attempts := 1, lastFailedAttemptAt := some 100 } : Task).scheduledAt ≠ 100 := by
  refine ⟨by decide, by decide⟩

/-- C6 (amended): for an existing task, `retry` increments `attempts` by
exactly 1, stores `lastError` when given (keeping the old value when
omitted), sets `lastFailedAttemptAt` to the current time, and sets
`scheduledAt = now + minRetryIntervalMins` minutes only when the parameter
is given and nonzero — when it is omitted, null, or 0 the schedule is
unchanged; every other field of the row, and every other row, is
unchanged. -/
theorem retry_spec (now : Int) (taskId : Nat) (lastError : Option String)
    (m : Option Int) (ts : List Task) (t : Task)
    (h : ts.find? (fun u => u.id == taskId) = some t) :
    Task.retry now taskId lastError m ts =
      .ok (ts.map (fun u => if u.id == taskId then taskRetryUpdate now lastError m u else u),
        taskRetryUpdate now lastError m t) ∧
    (taskRetryUpdate now lastError m t).attempts = t.attempts + 1 ∧
    (taskRetryUpdate now lastError m t).lastFailedAttemptAt = some now ∧
    (taskRetryUpdate now lastError m t).lastError =
      (match lastError with
        | some e => some e
        | none => t.lastError) ∧
    (taskRetryUpdate now lastError m t).scheduledAt =
      (match m with
        | some mm => if mm = 0 then t.scheduledAt else now + 1000 * 60 * mm
        | none => t.scheduledAt) ∧
    (taskRetryUpdate now lastError m t).id = t.id ∧
    (taskRetryUpdate now lastError m t).type = t.type ∧
    (taskRetryUpdate now lastError m t).payload = t.payload ∧
    (taskRetryUpdate now lastError m t).maxAttempts = t.maxAttempts ∧
    (taskRetryUpdate now lastError m t).succeededAt = t.succeededAt ∧
    (taskRetryUpdate now lastError m t).referenceUid = t.referenceUid ∧
    (taskRetryUpdate now lastError m t).createdAt = t.createdAt := by
  refine ⟨?_, rfl, rfl, ?_, ?_, rfl, rfl, rfl, rfl, rfl, rfl, rfl⟩
  · unfold Task.retry dbUpdate
    rw [h]
  · cases lastError <;> rfl
  · cases m with
    | none => rfl
    | some mm =>
      by_cases hz : mm = 0 <;> simp [taskRetryUpdate, hz]

/-- C6 (witness): the retry specification instantiated on a concrete
one-row store at time 100 with a five-minute interval. -/
theorem retry_spec_witness :
    [mkTask 1].find? (fun u => u.id == 1) = some (mkTask 1) ∧
    (taskRetryUpdate 100 (some ("boom")) (some 5) (mkTask 1)).attempts =
      (mkTask 1).attempts + 1 ∧
    (taskRetryUpdate 100 (some ("boom")) (some 5) (mkTask 1)).scheduledAt =
      100 + 1000 * 60 * 5 :=
  ⟨by decide,
    (retry_spec 100 1 (some ("boom")) (some 5) [mkTask 1] (mkTask 1) (by decide)).2.1,
    by decide⟩

/-- C7: `attempts` never decreases and grows by exactly 1 per retry or
succeed data patch: after any sequence of `N` such patches the value is the
initial value plus `N`; moreover the succeed patch sets `succeededAt` to
the current time, and at store level a `retry`/`succeed` call on an
existing row returns that row with exactly one increment applied. -/
theorem attempts_monotonic (t : Task) (ops : List LifecycleOp) :
    (ops.foldl applyLifecycleOp t).attempts = t.attempts + ops.length ∧
    t.attempts ≤ (ops.foldl applyLifecycleOp t).attempts ∧
    (∀ now : Int, (taskSucceedUpdate now t).succeededAt = some now ∧
      (taskSucceedUpdate now t).attempts = t.attempts + 1 ∧
      ∀ (lastError : Option String) (m : Option Int),
        (taskRetryUpdate now lastError m t).attempts = t.attempts + 1) ∧
    (∀ (now : Int) (taskId : Nat) (ts : List Task),
      ts.find? (fun u => u.id == taskId) = some t →
      (∀ (lastError : Option String) (m : Option Int),
        (Task.retry now taskId lastError m ts).map (fun p => p.2.attempts) =
          .ok (t.attempts + 1)) ∧
      (Task.succeed now taskId ts).map (fun p => p.2.attempts) =
        .ok (t.attempts + 1)) := by
  refine ⟨foldl_applyLifecycleOp_attempts ops t, ?_, ?_, ?_⟩
  · rw [foldl_applyLifecycleOp_attempts ops t]; omega
  · exact fun now => ⟨rfl, rfl, fun _ _ => rfl⟩
  · intro now taskId ts h
    constructor
    · intro lastError m
      unfold Task.retry dbUpdate
      rw [h]
      rfl
    · unfold Task.succeed dbUpdate
      rw [h]
      rfl

/-- C7 (witness): the attempts law instantiated on a concrete task, a
concrete two-call sequence (one retry, one succeed), and a concrete
one-row store. -/
theorem attempts_monotonic_witness :
    ([LifecycleOp.retryOp 5 none none, LifecycleOp.succeedOp 9].foldl
      applyLifecycleOp (mkTask 1)).attempts = (mkTask 1).attempts + 2 ∧
    (Task.succeed 9 1 [mkTask 1]).map (fun p => p.2.attempts) = .ok 1 :=
  ⟨(attempts_monotonic (mkTask 1)
      [LifecycleOp.retryOp 5 none none, LifecycleOp.succeedOp 9]).1,
    ((attempts_monotonic (mkTask 1) []).2.2.2 9 1 [mkTask 1] (by decide)).2⟩

/-- C8: `cancelWithReference` returns the deleted task's id when a matching
task exists, returns a benign null (no error) when none matches, and its
catch clause re-raises every store error other than the known-request code
`P2025`; `cancel`, `retry` and `succeed` all propagate the store's
not-found error unchanged when the id is absent. -/
theorem error_propagation_spec :
    (∀ (uid ty : String) (ts : List Task),
      ts.find? (fun t => t.referenceUid == some uid && t.type == ty) = none →
      Task.cancelWithReference uid ty ts = .ok (ts, none)) ∧
    (∀ (uid ty : String) (ts : List Task) (t : Task),
      ts.find? (fun t => t.referenceUid == some uid && t.type == ty) = some t →
      Task.cancelWithReference uid ty ts =
        .ok (ts.eraseP (fun u => u.referenceUid == some uid && u.type == ty),
          some t.id)) ∧
    (∀ e : PrismaError, e ≠ .knownRequest ("P2025") →
      handleCancelWithReferenceError e = .error e) ∧
    (∀ (taskId : Nat) (ts : List Task),
      ts.find? (fun t => t.id == taskId) = none →
      Task.cancel taskId ts = .error (.knownRequest ("P2025")) ∧
      (∀ (now : Int) (lastError : Option String) (m : Option Int),
        Task.retry now taskId lastError m ts =
          .error (.knownRequest ("P2025"))) ∧
      (∀ now : Int,
        Task.succeed now taskId ts = .error (.knownRequest ("P2025")))) := by
  refine ⟨?_, ?_, ?_, ?_⟩
  · intro uid ty ts h
    unfold Task.cancelWithReference dbDeleteByReference
    rw [h]
    rfl
  · intro uid ty ts t h
    unfold Task.cancelWithReference dbDeleteByReference
    rw [h]
  · intro e he
    cases e with
    | knownRequest code =>
      have hc : code ≠ "P2025" := fun hcode => he (by rw [hcode])
      simp [handleCancelWithReferenceError, hc]
    | other msg => rfl
  · intro taskId ts h
    refine ⟨?_, ?_, ?_⟩
    · unfold Task.cancel dbDeleteById
      rw [h]
    · intro now lastError m
      unfold Task.retry dbUpdate
      rw [h]
    · intro now
      unfold Task.succeed dbUpdate
      rw [h]

/-- C8 (witness): the propagation law instantiated on concrete stores: an
empty store (reference-cancel yields null; cancel yields the not-found
error), a one-row store whose row matches the reference (reference-cancel
deletes it and returns its id), and a concrete non-P2025 store error
(re-raised unchanged). -/
theorem error_propagation_spec_witness :
    Task.cancelWithReference ("u") ("sendEmail") [] = .ok ([], none) ∧
    Task.cancelWithReference ("u") ("sendEmail")
      [{ mkTask 2 with referenceUid := some ("u") }] = .ok ([], some 2) ∧
    handleCancelWithReferenceError (.other ("db down")) =
      .error (.other ("db down")) ∧
    Task.cancel 7 [] = .error (.knownRequest ("P2025")) :=
  ⟨error_propagation_spec.1 ("u") ("sendEmail") [] (by decide),
    error_propagation_spec.2.1 ("u") ("sendEmail")
      [{ mkTask 2 with referenceUid := some ("u") }]
      ({ mkTask 2 with referenceUid := some ("u") }) (by decide),
    error_propagation_spec.2.2.1 (.other ("db down")) (by decide),
    (error_propagation_spec.2.2.2 7 [] (by decide)).1⟩

/-- C9 (counterexample): the claim says a pending task whose payload fails
to parse is excluded from the check rather than causing an error; on a
store holding one pending `scanWorkflowBody` task whose payload is not
valid JSON (the raw query's `payload::jsonb` cast raises, `stepIdCast =
none`, and `JSON.parse` would throw, `schemaParse = none`) the whole check
aborts with the raw-query failure instead of returning false with the row
excluded. -/
theorem hasNewerScanTask_errors_on_unparseable_payload :
    Task.hasNewerScanTaskForStepId 7 10
      [{ mkTask 9 with type := "scanWorkflowBody", payload := { stepIdCast := none, schemaParse := none } }] =
      .error (.knownRequest ("P2010")) ∧
    Task.hasNewerScanTaskForStepId 7 10
      [{ mkTask 9 with type := "scanWorkflowBody", payload := { stepIdCast := none, schemaParse := none } }] ≠
      .ok false := by
  refine ⟨by decide, by decide⟩

/-- C9 (amended): when every pending `scanWorkflowBody` row's payload
passes the store-level cast, the check returns ok of: true iff some
not-yet-succeeded task of type `scanWorkflowBody` whose payload's
store-level extraction yields the given `workflowStepId` parses under the
scan-body schema to a body whose recorded creation timestamp is strictly
later than the candidate's — a row that passes the cast but fails
application-side JSON parsing or schema validation, or lacks a creation
timestamp, is excluded without error; but when some pending
`scanWorkflowBody` row's payload fails the store-level cast, the whole
check aborts with the store's raw-query error instead of excluding that
row. -/
theorem hasNewerScanTaskForStepId_spec (wsId cand : Int) (ts : List Task) :
    ((∀ t ∈ ts, t.type = "scanWorkflowBody" → t.succeededAt = none →
        t.payload.stepIdCast ≠ none) →
      (Task.hasNewerScanTaskForStepId wsId cand ts = .ok true ↔
        ∃ t ∈ ts, t.type = "scanWorkflowBody" ∧ t.succeededAt = none ∧
          t.payload.stepIdCast = some (some wsId) ∧
          ∃ p, t.payload.schemaParse = some p ∧
            ∃ c, p.createdAt = some c ∧ cand < c)) ∧
    ((∃ t ∈ ts, t.type = "scanWorkflowBody" ∧ t.succeededAt = none ∧
        t.payload.stepIdCast = none) →
      Task.hasNewerScanTaskForStepId wsId cand ts =
        .error (.knownRequest ("P2010"))) := by
  have hbody : ∀ t : Task,
      ((match t.payload.schemaParse with
        | none => false
        | some parsed =>
          match parsed.createdAt with
          | none => false
          | some c => decide (cand < c)) = true) ↔
      (∃ p, t.payload.schemaParse = some p ∧
        ∃ c, p.createdAt = some c ∧ cand < c) := by
    intro t
    cases hsp : t.payload.schemaParse with
    | none => simp
    | some p =>
      cases hca : p.createdAt with
      | none => simp [hca]
      | some c => simp [hca]
  constructor
  · intro hok
    have hany : (ts.any (fun t =>
        t.type == "scanWorkflowBody" && t.succeededAt == none &&
          t.payload.stepIdCast == none)) = false := by
      rw [List.any_eq_false]
      intro t ht hcontra
      simp only [Bool.and_eq_true, beq_iff_eq] at hcontra
      exact hok t ht hcontra.1.1 hcontra.1.2 hcontra.2
    unfold Task.hasNewerScanTaskForStepId
    rw [if_neg (by simp [hany])]
    simp only [Except.ok.injEq]
    rw [List.any_eq_true]
    constructor
    · rintro ⟨t, ht, hp⟩
      rw [List.mem_filter] at ht
      obtain ⟨hmem, hfilt⟩ := ht
      simp only [Bool.and_eq_true, beq_iff_eq] at hfilt
      obtain ⟨⟨hty, hsucc⟩, hstep⟩ := hfilt
      exact ⟨t, hmem, hty, hsucc, hstep, (hbody t).mp hp⟩
    · rintro ⟨t, hmem, hty, hsucc, hstep, p, hp, c, hc, hlt⟩
      refine ⟨t, ?_, ?_⟩
      · rw [List.mem_filter]
        refine ⟨hmem, ?_⟩
        simp [hty, hsucc, hstep]
      · exact (hbody t).mpr ⟨p, hp, c, hc, hlt⟩
  · rintro ⟨t, ht, hty, hsucc, hcast⟩
    have hany : (ts.any (fun t =>
        t.type == "scanWorkflowBody" && t.succeededAt == none &&
          t.payload.stepIdCast == none)) = true := by
      rw [List.any_eq_true]
      exact ⟨t, ht, by simp [hty, hsucc, hcast]⟩
    unfold Task.hasNewerScanTaskForStepId
    rw [if_pos hany]

/-- C9 (witness): the amended law instantiated concretely: a one-row store
whose pending scan row casts cleanly to step id 7 and carries creation
time 20 makes the check return ok true for a candidate timestamped 10; a
one-row store whose pending scan row's payload fails the cast makes the
whole check abort with the raw-query error. -/
theorem hasNewerScanTaskForStepId_spec_witness :
    Task.hasNewerScanTaskForStepId 7 10
      [{ mkTask 9 with type := "scanWorkflowBody", payload := { stepIdCast := some (some 7), schemaParse := some { workflowStepId := 7, createdAt := some 20 } } }] =
      .ok true ∧
    Task.hasNewerScanTaskForStepId 7 10
      [{ mkTask 8 with type := "scanWorkflowBody", payload := { stepIdCast := none, schemaParse := none } }] =
      .error (.knownRequest ("P2010")) :=
  ⟨((hasNewerScanTaskForStepId_spec 7 10
      [{ mkTask 9 with type := "scanWorkflowBody", payload := { stepIdCast := some (some 7), schemaParse := some { workflowStepId := 7, createdAt := some 20 } } }]).1
      (by decide)).mpr
      ⟨{ mkTask 9 with type := "scanWorkflowBody", payload := { stepIdCast := some (some 7), schemaParse := some { workflowStepId := 7, createdAt := some 20 } } },
        by decide, rfl, rfl, rfl,
        ⟨{ workflowStepId := 7, createdAt := some 20 }, rfl, 20, rfl, by decide⟩⟩,
    (hasNewerScanTaskForStepId_spec 7 10
      [{ mkTask 8 with type := "scanWorkflowBody", payload := { stepIdCast := none, schemaParse := none } }]).2
      ⟨{ mkTask 8 with type := "scanWorkflowBody", payload := { stepIdCast := none, schemaParse := none } },
        by decide, rfl, rfl, rfl⟩⟩

/-- C10: calling `retry` with `minRetryIntervalMins` equal to 0 (and
likewise null, which like an omitted argument is `none` here) is treated
exactly as if the parameter had been omitted — the whole store-level call
is equal, `scheduledAt` is unchanged — while the attempts increment and
the `lastFailedAttemptAt` update still occur. -/
theorem retry_zero_interval_treated_as_absent (now : Int) (taskId : Nat)
    (lastError : Option String) (ts : List Task) :
    Task.retry now taskId lastError (some 0) ts =
      Task.retry now taskId lastError none ts ∧
    ∀ t : Task,
      (taskRetryUpdate now lastError (some 0) t).scheduledAt = t.scheduledAt ∧
      (taskRetryUpdate now lastError (some 0) t).attempts = t.attempts + 1 ∧
      (taskRetryUpdate now lastError (some 0) t).lastFailedAttemptAt =
        some now := by
  have hfn : taskRetryUpdate now lastError (some 0) =
      taskRetryUpdate now lastError none := by
    funext t
    simp [taskRetryUpdate]
  refine ⟨?_, fun t => ⟨?_, rfl, rfl⟩⟩
  · unfold Task.retry
    rw [hfn]
  · rw [hfn]
    simp [taskRetryUpdate]

end Tasker
